import Mathlib

/-!
Verification of the agent-team orchestrator extension (agent-team.ts).

This file gives a shallow embedding of the pure logic of:
  * parseModelString / isLocalProvider / splitModelTag / parseParamSize,
  * checkOllamaModel (the model-capability checker, with the network
    modelled as an explicit probe-outcome argument),
  * parseAgentFile / scanAgentDirs (the agent-definition loader, with the
    filesystem modelled as explicit listings/contents),
  * parseTeamsYaml and the team-defaulting logic of loadAgents,
  * activateTeam, and
  * dispatchAgent (the dispatch engine: the pre-flight phase, the
    streamed-event processing loop, and the process-exit reconciliation),
together with theorems checking the specification's claims against it.

Effectful boundaries (fetch, readFileSync, readdirSync, spawn, Date.now,
timers) are modelled as explicit arguments: probe outcomes, optional file
contents, directory listings, the exit code, the stream of decoded event
lines, and the final elapsed milliseconds.  The setInterval ticker handle
is modelled as a Boolean presence flag.
-/

/-- JS String.prototype.toLowerCase, as used on agent names and provider
names (lowercase each character). -/
def jsToLower (s : String) : String := String.mk (s.data.map Char.toLower)

/-- Trim of a character list: strip leading and trailing whitespace. -/
def trimChars (cs : List Char) : List Char :=
  ((cs.dropWhile Char.isWhitespace).reverse.dropWhile Char.isWhitespace).reverse

/-- JS String.prototype.trim. -/
def jsTrim (s : String) : String := String.mk (trimChars s.data)

/-- Split a character list at every occurrence of the separator
character (JS String.prototype.split with a one-character separator:
empty pieces are kept). -/
def splitOnChar (c : Char) : List Char → List (List Char)
  | [] => [[]]
  | x :: rest =>
    if x = c then [] :: splitOnChar c rest
    else
      match splitOnChar c rest with
      | [] => [[x]]
      | l :: ls => (x :: l) :: ls

/-- JS split("\n"). -/
def splitLines (s : String) : List String :=
  (splitOnChar '\n' s.data).map String.mk

/-- Index of the first occurrence of character c in cs (JS indexOf, with
none for -1). -/
def firstIdxOf (cs : List Char) (c : Char) : Option Nat :=
  cs.findIdx? (· = c)

/-- Index of the last occurrence of character c in cs (JS lastIndexOf,
with none for -1). -/
def lastIdxOf (cs : List Char) (c : Char) : Option Nat :=
  match cs.reverse.findIdx? (· = c) with
  | some i => some (cs.length - 1 - i)
  | none => none

/-- First index at which pat occurs as a contiguous sublist of cs. -/
def findSubIdx (pat : List Char) : List Char → Option Nat
  | [] => if pat.isPrefixOf [] then some 0 else none
  | c :: rest =>
    if pat.isPrefixOf (c :: rest) then some 0
    else (findSubIdx pat rest).map (· + 1)

/-- JS String.prototype.includes. -/
def strContains (s pat : String) : Bool :=
  (findSubIdx pat.data s.data).isSome

-- ── Types (agent-team.ts) ────────────────────────

/-- AgentDef: one parsed agent definition file (interface AgentDef). -/
structure AgentDef where
  name : String
  description : String
  tools : String
  model : String
  thinking : String
  systemPrompt : String
  file : String
  deriving Repr, DecidableEq

/-- The four values of AgentState.status. -/
inductive AgentStatus
  | idle
  | running
  | done
  | error
  deriving Repr, DecidableEq

/-- AgentState: one live execution record (interface AgentState).  The
optional setInterval handle (timer) is modelled by the Boolean
timerActive; contextPct is kept as an exact rational. -/
structure AgentState where
  agentDef : AgentDef
  status : AgentStatus
  task : String
  toolCount : Nat
  elapsed : Nat
  lastWork : String
  contextPct : ℚ
  sessionFile : Option String
  runCount : Nat
  timerActive : Bool
  deriving Repr, DecidableEq

/-- ModelCheckResult: cached capability probe outcome. -/
structure ModelCheckResult where
  model : String
  reachable : Bool
  capabilities : List String
  hasTools : Bool
  parameterSize : String
  parameterSizeB : ℚ
  contextLength : Nat
  updateAvailable : Option Bool
  deriving Repr, DecidableEq

-- ── Model Capability Checking ───────────────────

/-- LOCAL_PROVIDERS: providers that get Ollama capability checks. -/
def LOCAL_PROVIDERS : List String :=
  ["ollama", "m3-ollama", "llama.cpp", "lmstudio", "llamafile", "jan"]

/-- MIN_RELIABLE_PARAMS_B: below this, tool calling is unreliable. -/
def MIN_RELIABLE_PARAMS_B : ℚ := 30

/-- parseModelString: split "provider/model-id" at the first slash; no
slash means no provider prefix. -/
def parseModelString (modelStr : String) : String × String :=
  match firstIdxOf modelStr.data '/' with
  | none => ("", modelStr)
  | some idx =>
      (String.mk (modelStr.data.take idx), String.mk (modelStr.data.drop (idx + 1)))

/-- isLocalProvider: empty provider inherits the dispatcher and is
skipped; otherwise membership of the lowercased provider in
LOCAL_PROVIDERS. -/
def isLocalProvider (provider : String) : Bool :=
  if provider = "" then false
  else LOCAL_PROVIDERS.contains (jsToLower provider)

/-- One character of the regex class [\d.]. -/
def isDigitOrDot (c : Char) : Bool := c.isDigit || c = '.'

/-- parseFloat on a token drawn from [\d.]+: longest valid decimal
prefix, as an exact rational.  An unparseable token (for which JS
parseFloat yields NaN) is mapped to 0; downstream the only consumer
compares parameterSizeB with 0 and with the 30 threshold, and NaN and 0
behave identically in those comparisons. -/
def parseFloatToken (cs : List Char) : ℚ :=
  let intPart := cs.takeWhile Char.isDigit
  let rest := cs.drop intPart.length
  let fracPart :=
    match rest with
    | '.' :: r => r.takeWhile Char.isDigit
    | _ => []
  if intPart = [] ∧ fracPart = [] then 0
  else
    let intVal : ℚ := intPart.foldl (fun a c => a * 10 + (c.toNat - 48)) (0 : ℚ)
    let fracVal : ℚ := fracPart.foldl (fun a c => a * 10 + (c.toNat - 48)) (0 : ℚ)
    intVal + fracVal / (10 ^ fracPart.length)

/-- The regex ([\d.]+)\s*([TBMK]) applied case-insensitively at one
position: a maximal [\d.]+ run, optional whitespace, then a unit
letter. -/
def paramSizeMatchAt (cs : List Char) : Option (List Char × Char) :=
  let num := cs.takeWhile isDigitOrDot
  if num = [] then none
  else
    let rest := (cs.drop num.length).dropWhile Char.isWhitespace
    match rest with
    | u :: _ =>
        if u.toUpper = 'T' ∨ u.toUpper = 'B' ∨ u.toUpper = 'M' ∨ u.toUpper = 'K' then
          some (num, u.toUpper)
        else none
    | [] => none

/-- Scan for the first position where the parameter-size pattern
matches (regex search semantics). -/
def paramSizeSearch : List Char → Option (List Char × Char)
  | [] => none
  | c :: rest =>
    match paramSizeMatchAt (c :: rest) with
    | some m => some m
    | none => paramSizeSearch rest

/-- parseParamSize: normalize strings like "30.5B" to billions. -/
def parseParamSize (sizeStr : String) : ℚ :=
  match paramSizeSearch sizeStr.data with
  | none => 0
  | some (num, unit) =>
      let n := parseFloatToken num
      if unit = 'T' then n * 1000
      else if unit = 'B' then n
      else if unit = 'M' then n / 1000
      else if unit = 'K' then n / 1000000
      else 0

/-- splitModelTag: split "name:tag" at the last colon; a missing tag
defaults to "latest". -/
def splitModelTag (modelName : String) : String × String :=
  match lastIdxOf modelName.data ':' with
  | none => (modelName, "latest")
  | some idx =>
      (String.mk (modelName.data.take idx), String.mk (modelName.data.drop (idx + 1)))

/-- SAFE_REGISTRY_NAME: ^[a-zA-Z0-9._-]+$ . -/
def isSafeRegistryName (s : String) : Bool :=
  s ≠ "" && s.data.all (fun c => c.isAlphanum || c = '.' || c = '_' || c = '-')

/-- Lowercase-hex characters of the digest regex class [a-f0-9]. -/
def isHexLower (c : Char) : Bool :=
  c.isDigit || ('a' ≤ c && c ≤ 'f')

/-- First match of the regex sha256-([a-f0-9]+) inside a modelfile:
scan for "sha256-" followed by at least one hex char, capturing the
maximal hex run. -/
def findSha256Digest : List Char → Option String
  | [] => none
  | c :: rest =>
    if ("sha256-".data).isPrefixOf (c :: rest) then
      let hex := ((c :: rest).drop 7).takeWhile isHexLower
      if hex = [] then findSha256Digest rest else some (String.mk hex)
    else findSha256Digest rest

/-- The JSON body returned by the /api/show endpoint, restricted to the
fields the checker reads.  Absent fields are none; model_info is the
entry list of the object with numeric values distinguished (the checker
tests typeof value === "number"). -/
structure ShowInfo where
  capabilities : Option (List String)
  parameterSize : Option String
  modelInfo : List (String × Option Nat)
  modelfile : Option String
  deriving Repr, DecidableEq

/-- Outcome of the fetch against the /api/show endpoint: the host may
be unreachable (fetch throws), respond not-ok (model not installed), or
respond ok with a body. -/
inductive ShowOutcome
  | unreachable
  | notOk
  | ok (info : ShowInfo)
  deriving Repr, DecidableEq

/-- The model-check cache (module-level Map, persists across team
switches).  Newest entries are consed on the front; lookup takes the
first match, which agrees with Map.get. -/
abbrev CheckCache := List (String × ModelCheckResult)

/-- The registry sub-step of checkOllamaModel, which sets
updateAvailable.  registryDigest is the remote layer digest (after
stripping "sha256:") when the registry fetch succeeded, the manifest
was ok and a model layer was found; none models every failure in that
try block.  Any failure leaves updateAvailable as none. -/
def registryUpdateCheck (modelName : String) (info : ShowInfo)
    (registryDigest : Option String) : Option Bool :=
  let (baseName, tag) := splitModelTag modelName
  if isSafeRegistryName baseName && isSafeRegistryName tag then
    match findSha256Digest (info.modelfile.getD "").data with
    | some localDigest =>
        match registryDigest with
        | some remoteDigest => some (localDigest ≠ remoteDigest)
        | none => none
    | none => none
  else none

/-- The ModelCheckResult built from an ok /api/show response. -/
def buildShowResult (modelName : String) (info : ShowInfo)
    (registryDigest : Option String) : ModelCheckResult :=
  let caps := info.capabilities.getD []
  let pSize := info.parameterSize.getD ""
  let ctxLen :=
    match info.modelInfo.find? (fun p => strContains p.1 "context_length" && p.2.isSome) with
    | some (_, some v) => v
    | _ => 0
  { model := modelName
    reachable := true
    capabilities := caps
    hasTools := caps.contains "tools"
    parameterSize := pSize
    parameterSizeB := parseParamSize pSize
    contextLength := ctxLen
    updateAvailable := registryUpdateCheck modelName info registryDigest }

/-- checkOllamaModel: return the cached result when present; otherwise
probe /api/show (outcome given explicitly).  An unreachable host
returns the all-defaults result UNCACHED; a not-ok response caches a
reachable result with no capabilities; an ok response caches the full
extracted result.  Returns the result and the cache after the call. -/
def checkOllamaModel (cache : CheckCache) (modelName : String)
    (outcome : ShowOutcome) (registryDigest : Option String) :
    ModelCheckResult × CheckCache :=
  match List.lookup modelName cache with
  | some cached => (cached, cache)
  | none =>
    let result : ModelCheckResult :=
      { model := modelName
        reachable := false
        capabilities := []
        hasTools := false
        parameterSize := ""
        parameterSizeB := 0
        contextLength := 0
        updateAvailable := none }
    match outcome with
    | .unreachable => (result, cache)
    | .notOk =>
        let r := { result with reachable := true }
        (r, (modelName, r) :: cache)
    | .ok info =>
        let r := buildShowResult modelName info registryDigest
        (r, (modelName, r) :: cache)

-- ── Display Name Helper ──────────────────────────

/-- Capitalize the first character of a word: charAt(0).toUpperCase() +
slice(1). -/
def capitalizeWord (w : String) : String :=
  match w.data with
  | [] => ""
  | c :: rest => String.mk (c.toUpper :: rest)

/-- displayName: split on dashes, capitalize each word, join with
spaces. -/
def displayName (name : String) : String :=
  String.intercalate " " (((splitOnChar '-' name.data).map String.mk).map capitalizeWord)

-- ── Teams YAML Parser ────────────────────────────

/-- Insert-or-replace on an association list, keeping the original
position on replacement — the behaviour of assignment on a JS object or
of Map.set for iteration order (keys are unique in every list this is
applied to). -/
def assocSet {α : Type} (m : List (String × α)) (k : String) (v : α) :
    List (String × α) :=
  match m with
  | [] => [(k, v)]
  | p :: rest => if p.1 = k then (k, v) :: rest else p :: assocSet rest k v

/-- Append one item to the member list stored at key k. -/
def assocPush (m : List (String × List String)) (k : String) (v : String) :
    List (String × List String) :=
  m.map (fun p => if p.1 = k then (p.1, p.2 ++ [v]) else p)

/-- Match of the team-header regex ^(\S[^:]*):$ — the line is a group
followed by a final colon, the group starts with a non-whitespace
character and contains no colon; the captured group is trimmed. -/
def teamLineMatch (line : String) : Option String :=
  let cs := line.data
  if cs.getLast? = some ':' then
    match cs.dropLast with
    | [] => none
    | c :: rest =>
        if ¬c.isWhitespace ∧ rest.all (· ≠ ':') then
          some (jsTrim (String.mk (c :: rest)))
        else none
  else none

/-- Match of the member-item regex ^\s+-\s+(.+)$ — leading whitespace,
a dash, at least one whitespace character, then at least one further
character; the item is the captured tail, trimmed.  (With a trailing
all-whitespace tail the regex backtracks so that (.+) captures the last
whitespace character; the trim makes the captured value equal to the
trim of the whole tail after the dash in every matching case.) -/
def itemLineMatch (line : String) : Option String :=
  let cs := line.data
  let ws1 := cs.takeWhile Char.isWhitespace
  let r1 := cs.dropWhile Char.isWhitespace
  if ws1 = [] then none
  else
    match r1 with
    | '-' :: c :: d :: rest =>
        if c.isWhitespace then some (jsTrim (String.mk (c :: d :: rest))) else none
    | _ => none

/-- parseTeamsYaml: fold the lines, tracking the current team; a team
header opens a fresh (empty) member list, an item line appends to the
current team. -/
def parseTeamsYaml (raw : String) : List (String × List String) :=
  (((splitLines raw).foldl
    (fun (acc : List (String × List String) × Option String) line =>
      match teamLineMatch line with
      | some name => (assocSet acc.1 name [], some name)
      | none =>
        match itemLineMatch line, acc.2 with
        | some item, some cur => (assocPush acc.1 cur item, acc.2)
        | _, _ => acc)
    ([], none))).1

-- ── Frontmatter Parser ───────────────────────────

/-- Split raw file text by the frontmatter regex
^---\n([\s\S]*?)\n---\n([\s\S]*)$ : the text must start with a dashed
fence line, the header is everything up to the FIRST subsequent fence
line (lazy group), and the remainder is the body. -/
def frontmatterSplit (raw : String) : Option (String × String) :=
  if ("---\n".data).isPrefixOf raw.data then
    let rest := (raw.data.drop 4)
    match findSubIdx ("\n---\n".data) rest with
    | some i => some (String.mk (rest.take i), String.mk (rest.drop (i + 5)))
    | none => none
  else none

/-- One header line: line.indexOf(":") must be positive; key is the
trimmed text before the first colon, value the trimmed text after. -/
def fmLine (line : String) : Option (String × String) :=
  match firstIdxOf line.data ':' with
  | some i =>
      if 0 < i then
        some (jsTrim (String.mk (line.data.take i)), jsTrim (String.mk (line.data.drop (i + 1))))
      else none
  | none => none

/-- The frontmatter record: fold the header lines, later duplicate keys
overwriting earlier ones. -/
def parseFrontmatter (fmRaw : String) : List (String × String) :=
  (splitLines fmRaw).foldl
    (fun m line =>
      match fmLine line with
      | some (k, v) => assocSet m k v
      | none => m)
    []

/-- JS truthiness-based fallback (frontmatter.tools || default): absent
or empty string falls back. -/
def orDefault (v : Option String) (dflt : String) : String :=
  match v with
  | some s => if s = "" then dflt else s
  | none => dflt

/-- parseAgentFile: raw is the file content, or none when readFileSync
throws (the catch returns null).  Requires the frontmatter fence pair;
requires a truthy name field (a missing or empty name rejects the
file); tools defaults to "read,grep,find,ls"; the system prompt is the
trimmed body. -/
def parseAgentFile (filePath : String) (raw : Option String) : Option AgentDef :=
  match raw with
  | none => none
  | some raw =>
    match frontmatterSplit raw with
    | none => none
    | some (fmRaw, body) =>
      let fm := parseFrontmatter fmRaw
      let nameVal := (List.lookup "name" fm).getD ""
      if nameVal = "" then none
      else
        some
          { name := nameVal
            description := (List.lookup "description" fm).getD ""
            tools := orDefault (List.lookup "tools" fm) "read,grep,find,ls"
            model := (List.lookup "model" fm).getD ""
            thinking := (List.lookup "thinking" fm).getD ""
            systemPrompt := jsTrim body
            file := filePath }

/-- One scanned directory: its path and, when it exists and readdirSync
succeeds, the ordered (fileName, content) listing, with content none
for an unreadable file. -/
structure ScannedDir where
  path : String
  listing : Option (List (String × Option String))
  deriving Repr, DecidableEq

/-- scanAgentDirs: walk the directories in order, keep every .md file
that parses, deduplicating case-insensitively on the lowercased name —
the first occurrence wins and later case-colliding files are skipped.
Nothing is recorded about skipped files.  A missing directory (or a
readdir failure) contributes nothing. -/
def scanAgentDirs (dirs : List ScannedDir) : List AgentDef :=
  (dirs.foldl
    (fun (acc : List AgentDef × List String) dir =>
      match dir.listing with
      | none => acc
      | some files =>
        files.foldl
          (fun (acc : List AgentDef × List String) (f : String × Option String) =>
            if (".md".data).isSuffixOf f.1.data then
              match parseAgentFile (dir.path ++ "/" ++ f.1) f.2 with
              | some d =>
                  if acc.2.contains (jsToLower d.name) then acc
                  else (acc.1 ++ [d], acc.2 ++ [jsToLower d.name])
              | none => acc
            else acc)
          acc)
    ([], [])).1

-- ── loadAgents: team synthesis ───────────────────

/-- The teams-manifest part of loadAgents.  manifestRaw is none when
teams.yaml does not exist, some none when reading it throws (the catch
leaves the empty record), and some (some raw) when it is read.  When
the resulting record has no teams, a single default team "all" is
synthesized holding every loaded agent name in load order. -/
def loadTeams (manifestRaw : Option (Option String)) (allAgentDefs : List AgentDef) :
    List (String × List String) :=
  let teams :=
    match manifestRaw with
    | none => []
    | some none => []
    | some (some raw) => parseTeamsYaml raw
  if teams.isEmpty then [("all", allAgentDefs.map (fun d => d.name))]
  else teams

-- ── activateTeam ─────────────────────────────────

/-- Replace every maximal whitespace run with a single dash: the
replace(/\s+/g, "-") step of the per-agent session-file key. -/
def squashWsAux : Bool → List Char → List Char
  | _, [] => []
  | prevWs, c :: rest =>
    if c.isWhitespace then
      (if prevWs then [] else ['-']) ++ squashWsAux true rest
    else c :: squashWsAux false rest

/-- The session-file key for an agent: lowercased name with whitespace
runs dashed. -/
def agentSessionKey (name : String) : String :=
  String.mk (squashWsAux false (jsToLower name).data)

/-- The session-file path join(sessionDir, key ++ ".json"). -/
def sessionFilePath (sessionDir name : String) : String :=
  sessionDir ++ "/" ++ agentSessionKey name ++ ".json"

/-- The per-member body of the activateTeam loop: resolve the member
against the loaded definitions (lookup by lowercased name, where the
defsByName Map keeps the LAST definition for a duplicate lowercased
name, per Map-constructor semantics) and, when resolved, store a fresh
idle state keyed by the lowercased definition name.  existsFile models
existsSync on the member's session-file path. -/
def activateStep (allAgentDefs : List AgentDef) (sessionDir : String)
    (existsFile : String → Bool) (states : List (String × AgentState))
    (member : String) : List (String × AgentState) :=
  match (allAgentDefs.reverse).find? (fun d => jsToLower d.name = jsToLower member) with
  | none => states
  | some d =>
    let sessionFile := sessionFilePath sessionDir d.name
    assocSet states (jsToLower d.name)
      { agentDef := d
        status := .idle
        task := ""
        toolCount := 0
        elapsed := 0
        lastWork := ""
        contextPct := 0
        sessionFile := if existsFile sessionFile then some sessionFile else none
        runCount := 0
        timerActive := false }

/-- activateTeam: clear the previous team's states and build a fresh
state table from the named team's member list. -/
def activateTeam (allAgentDefs : List AgentDef) (teams : List (String × List String))
    (teamName : String) (sessionDir : String) (existsFile : String → Bool) :
    List (String × AgentState) :=
  ((List.lookup teamName teams).getD []).foldl
    (activateStep allAgentDefs sessionDir existsFile) []

/-- The auto-sized grid column count after activation. -/
def autoGridCols (size : Nat) : Nat :=
  if size ≤ 3 then size else if size = 4 then 2 else 3

-- ── Dispatch Agent ───────────────────────────────

/-- The value resolved by dispatchAgent: captured transcript, exit
indicator, elapsed milliseconds. -/
structure DispatchResult where
  output : String
  exitCode : Int
  elapsed : Nat
  deriving Repr, DecidableEq

/-- One entry of the messages list of an agent_end event: its role and,
when the message carries a usage object, the input-token count (a
missing input field counts as 0). -/
structure AgentMsg where
  role : String
  usage : Option Nat
  deriving Repr, DecidableEq

/-- One decoded JSON line of the child's stdout, restricted to the
fields the handler reads.  messageUpdate carries some delta exactly
when assistantMessageEvent has type text_delta (a missing delta field
is the empty string); messageEnd carries some input-token count exactly
when the event's message has a usage object; otherEvent covers every
other recognized-shape event (ignored by the handler). -/
inductive PiEvent
  | messageUpdate (delta : Option String)
  | toolExecutionStart
  | messageEnd (usage : Option Nat)
  | agentEnd (messages : List AgentMsg)
  | otherEvent
  deriving Repr, DecidableEq

/-- full.split("\n").filter(l => l.trim()).pop() || "" — the last
non-blank line of a transcript, or the empty string. -/
def lastNonBlankLine (s : String) : String :=
  (((splitLines s).filter (fun l => !((jsTrim l).data.isEmpty))).getLast?).getD ""

/-- The stdout data handler for one decoded event: updates the live
state and the accumulated text chunks.  contextWindow is the ambient
dispatcher context-window size captured at session start. -/
def applyEvent (contextWindow : Nat) (acc : AgentState × List String) (e : PiEvent) :
    AgentState × List String :=
  match e with
  | .messageUpdate (some d) =>
      let chunks := acc.2 ++ [d]
      ({ acc.1 with lastWork := lastNonBlankLine (String.join chunks) }, chunks)
  | .messageUpdate none => acc
  | .toolExecutionStart => ({ acc.1 with toolCount := acc.1.toolCount + 1 }, acc.2)
  | .messageEnd usage =>
      match usage with
      | some i =>
          if 0 < contextWindow then
            ({ acc.1 with contextPct := ((i : ℚ) / (contextWindow : ℚ)) * 100 }, acc.2)
          else acc
      | none => acc
  | .agentEnd msgs =>
      match (msgs.reverse).find? (fun m => m.role = "assistant") with
      | some last =>
          match last.usage with
          | some i =>
              if 0 < contextWindow then
                ({ acc.1 with contextPct := ((i : ℚ) / (contextWindow : ℚ)) * 100 }, acc.2)
              else acc
          | none => acc
      | none => acc
  | .otherEvent => acc

/-- The stream of complete stdout lines, already split on newlines and
decoded: none stands for a line that is blank or fails JSON.parse
(both are skipped). -/
def processStream (contextWindow : Nat) (acc : AgentState × List String)
    (lines : List (Option PiEvent)) : AgentState × List String :=
  lines.foldl
    (fun acc line =>
      match line with
      | some e => applyEvent contextWindow acc e
      | none => acc)
    acc

/-- The final parse attempt on the trailing buffer fragment at close:
only a message-update text delta contributes a chunk; every other
decoded shape (and an undecodable or blank buffer) contributes
nothing. -/
def closeChunks (textChunks : List String) (leftover : Option PiEvent) : List String :=
  match leftover with
  | some (.messageUpdate (some d)) => textChunks ++ [d]
  | _ => textChunks

/-- The close handler: the ticker is cleared, the final elapsed time
set, the status decided by the exit code (null exit codes count as
failures), the session file recorded as resumable on success only, and
the last-work fragment set from the full transcript. -/
def onClose (st : AgentState) (textChunks : List String) (leftover : Option PiEvent)
    (code : Option Int) (finalElapsed : Nat) (agentSessionFile : String) :
    AgentState × DispatchResult :=
  let chunks := closeChunks textChunks leftover
  let full := String.join chunks
  ({ st with
      timerActive := false
      elapsed := finalElapsed
      status := if code = some 0 then .done else .error
      sessionFile := if code = some 0 then some agentSessionFile else st.sessionFile
      lastWork := lastNonBlankLine full },
   { output := full, exitCode := code.getD 1, elapsed := finalElapsed })

/-- The spawn-error handler: ticker cleared, status error, the failure
message recorded as the last-work fragment; the state's elapsed field
is NOT updated here (only the resolved result carries the elapsed
time). -/
def onSpawnError (st : AgentState) (errMsg : String) (errElapsed : Nat) :
    AgentState × DispatchResult :=
  ({ st with timerActive := false, status := .error, lastWork := "Error: " ++ errMsg },
   { output := "Error spawning agent: " ++ errMsg, exitCode := 1, elapsed := errElapsed })

/-- The argument vector passed to the spawned child session. -/
def buildArgs (st : AgentState) (task model thinking agentSessionFile : String) :
    List String :=
  ["--mode", "json", "-p", "--no-extensions",
   "--model", model, "--tools", st.agentDef.tools,
   "--thinking", thinking, "--append-system-prompt", st.agentDef.systemPrompt,
   "--session", agentSessionFile]
  ++ (if st.sessionFile.isSome then ["-c"] else [])
  ++ [task]

/-- The dispatcher's ambient model reference (ctx.model), as a
provider/id pair when present. -/
def ctxModelString (ctxModel : Option (String × String)) : String :=
  match ctxModel with
  | some pm => pm.1 ++ "/" ++ pm.2
  | none => ""

/-- The effective model of a dispatch: the agent's override, or else
the dispatcher's ambient model (empty when neither exists). -/
def effectiveModelOf (st : AgentState) (ctxModel : Option (String × String)) : String :=
  if st.agentDef.model = "" then ctxModelString ctxModel else st.agentDef.model

/-- The pre-dispatch capability lookup: the cached result if present,
else a live checkOllamaModel call (which itself caches per its own
rules). -/
def dispatchModelCheck (cache : CheckCache) (modelName : String)
    (outcome : ShowOutcome) (registryDigest : Option String) :
    ModelCheckResult × CheckCache :=
  match List.lookup modelName cache with
  | some c => (c, cache)
  | none => checkOllamaModel cache modelName outcome registryDigest

/-- The not-found rejection message. -/
def notFoundMsg (agentName : String) (states : List (String × AgentState)) : String :=
  "Agent \"" ++ agentName ++ "\" not found. Available: " ++
    String.intercalate ", " (states.map (fun p => displayName p.2.agentDef.name))

/-- The already-running rejection message. -/
def alreadyRunningMsg (st : AgentState) : String :=
  "Agent \"" ++ displayName st.agentDef.name ++ "\" is already running. Wait for it to finish."

/-- The blocked-dispatch message for a reachable model without tool
support. -/
def blockedMsg (modelName : String) (check : ModelCheckResult) (st : AgentState) : String :=
  "BLOCKED: \"" ++ modelName ++ "\" does not support tool calling (capabilities: [" ++
    String.intercalate ", " check.capabilities ++ "]). Agent \"" ++
    displayName st.agentDef.name ++ "\" would fail to use tools. Fix the model override in " ++
    st.agentDef.file ++ " or run /agents-check."

/-- Outcome of the synchronous part of dispatchAgent, before any
process is spawned. -/
inductive PreOutcome
  | notFound (r : DispatchResult)
  | alreadyRunning (r : DispatchResult)
  | blocked (r : DispatchResult)
  | launch (st : AgentState)
  deriving Repr, DecidableEq

/-- The synchronous phase together with the state table and cache after
it. -/
structure PreStep where
  outcome : PreOutcome
  states : List (String × AgentState)
  cache : CheckCache
  deriving Repr, DecidableEq

/-- The synchronous pre-spawn phase of dispatchAgent: resolve the state
by the lowercased request name; reject when absent or already running;
for a local-provider effective model, consult the capability cache
(probing live on a cold cache) and reject when the result is reachable
without tool support; otherwise transition the state to running with
per-run counters reset, the run counter bumped and the ticker
started. -/
def dispatchPre (states : List (String × AgentState)) (agentName task : String)
    (ctxModel : Option (String × String)) (cache : CheckCache)
    (outcome : ShowOutcome) (registryDigest : Option String) : PreStep :=
  let key := jsToLower agentName
  match List.lookup key states with
  | none =>
      { outcome := .notFound
          { output := notFoundMsg agentName states, exitCode := 1, elapsed := 0 }
        states := states
        cache := cache }
  | some state =>
    if state.status = .running then
      { outcome := .alreadyRunning
          { output := alreadyRunningMsg state, exitCode := 1, elapsed := 0 }
        states := states
        cache := cache }
    else
      let effectiveModel := effectiveModelOf state ctxModel
      let gate : Option String × CheckCache :=
        if effectiveModel ≠ "" then
          let pm := parseModelString effectiveModel
          if isLocalProvider pm.1 then
            let cr := dispatchModelCheck cache pm.2 outcome registryDigest
            if cr.1.reachable ∧ ¬cr.1.hasTools then
              (some (blockedMsg pm.2 cr.1 state), cr.2)
            else (none, cr.2)
          else (none, cache)
        else (none, cache)
      match gate with
      | (some msg, cacheAfter) =>
          { outcome := .blocked { output := msg, exitCode := 1, elapsed := 0 }
            states := states
            cache := cacheAfter }
      | (none, cacheAfter) =>
          let st :=
            { state with
                status := .running
                task := task
                toolCount := 0
                elapsed := 0
                lastWork := ""
                runCount := state.runCount + 1
                timerActive := true }
          { outcome := .launch st
            states := assocSet states key st
            cache := cacheAfter }

/-- Behaviour of the spawned child: either the spawn itself errors, or
the process runs, producing a stream of decoded stdout lines, a
trailing buffered fragment, an exit code (none for a null code) and a
final elapsed time. -/
inductive SpawnBehavior
  | spawnError (errMsg : String) (errElapsed : Nat)
  | runs (lines : List (Option PiEvent)) (leftover : Option PiEvent)
      (code : Option Int) (finalElapsed : Nat)
  deriving Repr, DecidableEq

/-- The full outcome of one dispatchAgent call: the resolved result,
the state table and capability cache afterwards, and whether a child
process was spawned. -/
structure DispatchOutcome where
  result : DispatchResult
  states : List (String × AgentState)
  cache : CheckCache
  launched : Bool
  deriving Repr, DecidableEq

/-- dispatchAgent end to end: the pre-spawn phase, then — only when it
reaches the launch step — the spawn with its streamed events and exit
reconciliation (or spawn-error) path. -/
def dispatchRun (states : List (String × AgentState)) (agentName task : String)
    (ctxModel : Option (String × String)) (cache : CheckCache)
    (outcome : ShowOutcome) (registryDigest : Option String)
    (contextWindow : Nat) (sessionDir : String) (behavior : SpawnBehavior) :
    DispatchOutcome :=
  let pre := dispatchPre states agentName task ctxModel cache outcome registryDigest
  match pre.outcome with
  | .notFound r => { result := r, states := pre.states, cache := pre.cache, launched := false }
  | .alreadyRunning r =>
      { result := r, states := pre.states, cache := pre.cache, launched := false }
  | .blocked r => { result := r, states := pre.states, cache := pre.cache, launched := false }
  | .launch st =>
      let key := jsToLower agentName
      let agentSessionFile := sessionFilePath sessionDir st.agentDef.name
      match behavior with
      | .spawnError msg errElapsed =>
          let fin := onSpawnError st msg errElapsed
          { result := fin.2
            states := assocSet pre.states key fin.1
            cache := pre.cache
            launched := true }
      | .runs lines leftover code finalElapsed =>
          let streamed := processStream contextWindow (st, []) lines
          let fin := onClose streamed.1 streamed.2 leftover code finalElapsed agentSessionFile
          { result := fin.2
            states := assocSet pre.states key fin.1
            cache := pre.cache
            launched := true }

-- ── Shared lemmas ────────────────────────────────

/-- The text contribution of one decoded event: the delta of a
text-delta message update, nothing otherwise. -/
def eventText : PiEvent → Option String
  | .messageUpdate (some d) => some d
  | _ => none

/-- The text contribution of one stdout line. -/
def lineText : Option PiEvent → Option String
  | some e => eventText e
  | none => none

/-- The full transcript of a run: the text chunks of the complete
lines followed by the chunk salvaged from the trailing buffer. -/
def fullTranscript (lines : List (Option PiEvent)) (leftover : Option PiEvent) :
    List String :=
  lines.filterMap lineText ++ (lineText leftover).toList

theorem lookup_assocSet {α : Type} (m : List (String × α)) (k : String) (v : α) :
    List.lookup k (assocSet m k v) = some v := by
  induction m with
  | nil => simp [assocSet, List.lookup]
  | cons p rest ih =>
    by_cases hp : p.1 = k
    · simp [assocSet, hp, List.lookup]
    · have hk : (k == p.1) = false := beq_eq_false_iff_ne.2 (fun h => hp h.symm)
      simp [assocSet, hp, List.lookup, hk, ih]

theorem mem_assocSet {α : Type} {P : String × α → Prop} :
    ∀ (m : List (String × α)) (k : String) (v : α), (∀ p ∈ m, P p) → P (k, v) →
      ∀ p ∈ assocSet m k v, P p := by
  intro m
  induction m with
  | nil =>
    intro k v _ hkv p hp
    simp [assocSet] at hp
    exact hp ▸ hkv
  | cons q rest ih =>
    intro k v hm hkv p hp
    by_cases hq : q.1 = k
    · simp only [assocSet, hq, if_pos] at hp
      rcases List.mem_cons.1 hp with h | h
      · exact h ▸ hkv
      · exact hm p (List.mem_cons_of_mem q h)
    · simp only [assocSet, hq, if_neg, not_false_iff] at hp
      rcases List.mem_cons.1 hp with h | h
      · exact h ▸ hm q (List.mem_cons_self q rest)
      · exact ih k v (fun r hr => hm r (List.mem_cons_of_mem q hr)) hkv p h

theorem applyEvent_toolCount (cw : Nat) (acc : AgentState × List String) (e : PiEvent) :
    (applyEvent cw acc e).1.toolCount =
      acc.1.toolCount + (if e = .toolExecutionStart then 1 else 0) := by
  cases e with
  | messageUpdate d => cases d <;> simp [applyEvent]
  | toolExecutionStart => simp [applyEvent]
  | messageEnd u =>
    cases u with
    | none => simp [applyEvent]
    | some i => by_cases h : 0 < cw <;> simp [applyEvent, h]
  | agentEnd msgs =>
    simp only [applyEvent]
    cases hfind : (msgs.reverse).find? (fun m => m.role = "assistant") with
    | none => simp
    | some last =>
      cases hu : last.usage with
      | none => simp [hu]
      | some i => by_cases h : 0 < cw <;> simp [hu, h]
  | otherEvent => simp [applyEvent]

theorem applyEvent_transcript (cw : Nat) (acc : AgentState × List String) (e : PiEvent) :
    (applyEvent cw acc e).2 = acc.2 ++ (eventText e).toList := by
  cases e with
  | messageUpdate d => cases d <;> simp [applyEvent, eventText]
  | toolExecutionStart => simp [applyEvent, eventText]
  | messageEnd u =>
    cases u with
    | none => simp [applyEvent, eventText]
    | some i => by_cases h : 0 < cw <;> simp [applyEvent, eventText, h]
  | agentEnd msgs =>
    simp only [applyEvent, eventText]
    cases hfind : (msgs.reverse).find? (fun m => m.role = "assistant") with
    | none => simp
    | some last =>
      cases hu : last.usage with
      | none => simp [hu]
      | some i => by_cases h : 0 < cw <;> simp [hu, h]
  | otherEvent => simp [applyEvent, eventText]

theorem processStream_toolCount (cw : Nat) (lines : List (Option PiEvent)) :
    ∀ acc : AgentState × List String,
      (processStream cw acc lines).1.toolCount =
        acc.1.toolCount + lines.countP (fun l => l = some .toolExecutionStart) := by
  induction lines with
  | nil => intro acc; simp [processStream]
  | cons l rest ih =>
    intro acc
    simp only [processStream, List.foldl_cons] at *
    cases l with
    | none =>
      rw [ih]
      have : ¬((none : Option PiEvent) = some PiEvent.toolExecutionStart) := by simp
      simp [List.countP_cons, this]
    | some e =>
      rw [ih, applyEvent_toolCount]
      by_cases he : e = .toolExecutionStart
      · simp [List.countP_cons, he]
        omega
      · have hne : ¬((some e) = some PiEvent.toolExecutionStart) := by
          simp [he]
        simp [List.countP_cons, he, hne]

theorem processStream_transcript (cw : Nat) (lines : List (Option PiEvent)) :
    ∀ acc : AgentState × List String,
      (processStream cw acc lines).2 = acc.2 ++ lines.filterMap lineText := by
  induction lines with
  | nil => intro acc; simp [processStream]
  | cons l rest ih =>
    intro acc
    simp only [processStream, List.foldl_cons] at *
    cases l with
    | none => rw [ih]; simp [lineText, List.filterMap_cons]
    | some e =>
      rw [ih, applyEvent_transcript]
      cases he : eventText e with
      | none => simp [lineText, List.filterMap_cons, he]
      | some d => simp [lineText, List.filterMap_cons, he]

theorem lastNonBlankLine_ne_empty (s : String)
    (h : (splitLines s).any (fun l => !((jsTrim l).data.isEmpty)) = true) :
    lastNonBlankLine s ≠ "" := by
  unfold lastNonBlankLine
  rcases List.any_eq_true.1 h with ⟨l, hl, hpred⟩
  have hmem : l ∈ (splitLines s).filter (fun l => !((jsTrim l).data.isEmpty)) :=
    List.mem_filter.2 ⟨hl, hpred⟩
  have hne : (splitLines s).filter (fun l => !((jsTrim l).data.isEmpty)) ≠ [] :=
    List.ne_nil_of_mem hmem
  rw [List.getLast?_eq_getLast_of_ne_nil hne]
  have hlastmem := List.getLast_mem hne
  have hlastpred := (List.mem_filter.1 hlastmem).2
  intro hcontr
  simp only [Option.getD_some] at hcontr
  rw [hcontr] at hlastpred
  simp [jsTrim, trimChars] at hlastpred

theorem closeChunks_eq (textChunks : List String) (leftover : Option PiEvent) :
    closeChunks textChunks leftover = textChunks ++ (lineText leftover).toList := by
  cases leftover with
  | none => simp [closeChunks, lineText]
  | some e =>
    cases e with
    | messageUpdate d => cases d <;> simp [closeChunks, lineText, eventText]
    | toolExecutionStart => simp [closeChunks, lineText, eventText]
    | messageEnd u => simp [closeChunks, lineText, eventText]
    | agentEnd msgs => simp [closeChunks, lineText, eventText]
    | otherEvent => simp [closeChunks, lineText, eventText]

-- ── Sample values for concrete scenarios ─────────

/-- A cloud-model agent definition used in concrete scenarios. -/
def sampleDef : AgentDef :=
  { name := "Scout"
    description := "explores the codebase"
    tools := "read,grep,find,ls"
    model := ""
    thinking := ""
    systemPrompt := "You scout."
    file := "agents/scout.md" }

/-- A fresh idle state for sampleDef, as activateTeam creates it. -/
def sampleIdle : AgentState :=
  { agentDef := sampleDef
    status := .idle
    task := ""
    toolCount := 0
    elapsed := 0
    lastWork := ""
    contextPct := 0
    sessionFile := none
    runCount := 0
    timerActive := false }

/-- The same agent mid-run. -/
def sampleRunning : AgentState :=
  { sampleIdle with status := .running, task := "prior task", runCount := 1, timerActive := true }

/-- An agent definition overriding to a local Ollama model. -/
def sampleLocalDef : AgentDef :=
  { sampleDef with name := "builder", model := "ollama/llama3:8b", file := "agents/builder.md" }

/-- A fresh idle state for the local-model agent. -/
def sampleLocalIdle : AgentState :=
  { sampleIdle with agentDef := sampleLocalDef }

/-- An /api/show body for an installed model without the tools
capability. -/
def sampleNoToolsInfo : ShowInfo :=
  { capabilities := some ["completion"]
    parameterSize := some "8B"
    modelInfo := [("llama.context_length", some 8192)]
    modelfile := none }

-- ── Claims ───────────────────────────────────────

/-- C1: a dispatch naming an agent whose state is currently running
returns the already-running rejection — exit indicator 1, elapsed time
0 — and leaves everything unchanged: the state table (hence that
agent's status, counters and run counter) and the capability cache are
exactly the input ones, and no child process is launched, whatever the
probe outcome or spawn behaviour would have been. -/
theorem dispatchRejectsAlreadyRunning
    (states : List (String × AgentState)) (agentName task : String)
    (ctxModel : Option (String × String)) (cache : CheckCache)
    (outcome : ShowOutcome) (registryDigest : Option String)
    (contextWindow : Nat) (sessionDir : String) (behavior : SpawnBehavior)
    (st : AgentState)
    (hlook : List.lookup (jsToLower agentName) states = some st)
    (hrun : st.status = .running) :
    dispatchRun states agentName task ctxModel cache outcome registryDigest
        contextWindow sessionDir behavior =
      { result := { output := alreadyRunningMsg st, exitCode := 1, elapsed := 0 }
        states := states
        cache := cache
        launched := false } := by
  simp [dispatchRun, dispatchPre, hlook, hrun]

/-- C1 witness: the rejection at a concrete running agent. -/
theorem dispatchRejectsAlreadyRunningWitness :
    dispatchRun [("scout", sampleRunning)] "Scout" "list files" none [] .unreachable none
        0 "sd" (.runs [] none (some 0) 7) =
      { result := { output := alreadyRunningMsg sampleRunning, exitCode := 1, elapsed := 0 }
        states := [("scout", sampleRunning)]
        cache := []
        launched := false } :=
  dispatchRejectsAlreadyRunning _ _ _ _ _ _ _ _ _ _ sampleRunning (by rfl) (by rfl)

/-- C2: when the effective model is served by a local provider and the
capability check (cache hit or live probe) reports a reachable model
without tool support, the dispatch is rejected with the blocking
message, exit indicator 1 and elapsed 0, no child process is spawned,
and the state table is unchanged — the agent stays idle with all
counters intact (only the capability cache may have gained the probed
result). -/
theorem dispatchBlocksToollessLocalModel
    (states : List (String × AgentState)) (agentName task : String)
    (ctxModel : Option (String × String)) (cache : CheckCache)
    (outcome : ShowOutcome) (registryDigest : Option String)
    (contextWindow : Nat) (sessionDir : String) (behavior : SpawnBehavior)
    (st : AgentState)
    (hlook : List.lookup (jsToLower agentName) states = some st)
    (hidle : st.status = .idle)
    (hlocal : isLocalProvider (parseModelString (effectiveModelOf st ctxModel)).1 = true)
    (hreach : (dispatchModelCheck cache (parseModelString (effectiveModelOf st ctxModel)).2
        outcome registryDigest).1.reachable = true)
    (htools : (dispatchModelCheck cache (parseModelString (effectiveModelOf st ctxModel)).2
        outcome registryDigest).1.hasTools = false) :
    dispatchRun states agentName task ctxModel cache outcome registryDigest
        contextWindow sessionDir behavior =
      { result :=
          { output := blockedMsg (parseModelString (effectiveModelOf st ctxModel)).2
              (dispatchModelCheck cache (parseModelString (effectiveModelOf st ctxModel)).2
                outcome registryDigest).1 st
            exitCode := 1
            elapsed := 0 }
        states := states
        cache := (dispatchModelCheck cache (parseModelString (effectiveModelOf st ctxModel)).2
            outcome registryDigest).2
        launched := false } := by
  have hem : ¬(effectiveModelOf st ctxModel = "") := by
    intro h
    rw [h] at hlocal
    exact absurd hlocal (by decide)
  have hnr : ¬(st.status = .running) := by rw [hidle]; intro h; cases h
  simp [dispatchRun, dispatchPre, hlook, hnr, hem, hlocal, hreach, htools]

/-- C2 witness: a concrete idle agent with an ollama override whose
probe reports reachable without tools is rejected with the state table
unchanged. -/
theorem dispatchBlocksToollessLocalModelWitness :
    dispatchRun [("builder", sampleLocalIdle)] "Builder" "build it" none []
        (.ok sampleNoToolsInfo) none 0 "sd" (.runs [] none (some 0) 7) =
      { result :=
          { output := blockedMsg "llama3:8b"
              (dispatchModelCheck [] "llama3:8b" (.ok sampleNoToolsInfo) none).1 sampleLocalIdle
            exitCode := 1
            elapsed := 0 }
        states := [("builder", sampleLocalIdle)]
        cache := (dispatchModelCheck [] "llama3:8b" (.ok sampleNoToolsInfo) none).2
        launched := false } :=
  dispatchBlocksToollessLocalModel _ _ _ _ _ _ _ _ _ _ sampleLocalIdle
    (by rfl) (by rfl) (by rfl) (by rfl) (by rfl)

/-- C3: the capability checker caches a result exactly when it is
reachable.  A cache hit is returned as-is without probing; on a cold
cache, the produced result is stored under the model identifier iff it
has reachable=true, an unreachable outcome leaves the cache untouched,
and once a reachable result is stored every later call for the same
identifier returns it unchanged regardless of any new probe outcome
(no re-probe). -/
theorem checkCachesIffReachable (cache : CheckCache) (modelName : String)
    (outcome : ShowOutcome) (registryDigest : Option String) :
    (∀ c, List.lookup modelName cache = some c →
        checkOllamaModel cache modelName outcome registryDigest = (c, cache)) ∧
    (List.lookup modelName cache = none →
      (List.lookup modelName (checkOllamaModel cache modelName outcome registryDigest).2 =
          some (checkOllamaModel cache modelName outcome registryDigest).1 ↔
        (checkOllamaModel cache modelName outcome registryDigest).1.reachable = true) ∧
      ((checkOllamaModel cache modelName outcome registryDigest).1.reachable = false →
        (checkOllamaModel cache modelName outcome registryDigest).2 = cache) ∧
      ((checkOllamaModel cache modelName outcome registryDigest).1.reachable = true →
        ∀ outcome2 registryDigest2,
          checkOllamaModel (checkOllamaModel cache modelName outcome registryDigest).2
              modelName outcome2 registryDigest2 =
            ((checkOllamaModel cache modelName outcome registryDigest).1,
             (checkOllamaModel cache modelName outcome registryDigest).2))) := by
  constructor
  · intro c hc
    simp [checkOllamaModel, hc]
  · intro hn
    cases outcome with
    | unreachable => simp [checkOllamaModel, hn]
    | notOk => simp [checkOllamaModel, hn, List.lookup]
    | ok info => simp [checkOllamaModel, hn, List.lookup, buildShowResult]

/-- C3 witness: concrete cold-cache calls — an unreachable probe stays
uncached, a not-ok probe is cached and returned verbatim on the next
call even with a different probe outcome. -/
theorem checkCachesIffReachableWitness :
    (checkOllamaModel [] "m" .unreachable none).2 = [] ∧
    (List.lookup "m" (checkOllamaModel [] "m" .notOk none).2 =
        some (checkOllamaModel [] "m" .notOk none).1) ∧
    checkOllamaModel (checkOllamaModel [] "m" .notOk none).2 "m" .unreachable none =
      ((checkOllamaModel [] "m" .notOk none).1, (checkOllamaModel [] "m" .notOk none).2) := by
  have hu := (checkCachesIffReachable [] "m" .unreachable none).2 (by rfl)
  have hk := (checkCachesIffReachable [] "m" .notOk none).2 (by rfl)
  refine ⟨hu.2.1 (by rfl), hk.1.mpr (by rfl), hk.2.2 (by rfl) .unreachable none⟩

/-- C4: exit reconciliation — the final status is done exactly when the
exit code is 0 and error otherwise (including a null code), the ticker
is stopped and the final elapsed time recorded in both cases, and the
resumable session handle is recorded on the success path only: after a
failed exit it keeps its prior value. -/
theorem closeReconciliation (st : AgentState) (textChunks : List String)
    (leftover : Option PiEvent) (code : Option Int) (finalElapsed : Nat)
    (agentSessionFile : String) :
    ((onClose st textChunks leftover code finalElapsed agentSessionFile).1.status = .done
        ↔ code = some 0) ∧
    (code ≠ some 0 →
      (onClose st textChunks leftover code finalElapsed agentSessionFile).1.status = .error) ∧
    (onClose st textChunks leftover code finalElapsed agentSessionFile).1.timerActive = false ∧
    (onClose st textChunks leftover code finalElapsed agentSessionFile).1.elapsed = finalElapsed ∧
    (onClose st textChunks leftover code finalElapsed agentSessionFile).2.elapsed = finalElapsed ∧
    (code = some 0 →
      (onClose st textChunks leftover code finalElapsed agentSessionFile).1.sessionFile =
        some agentSessionFile) ∧
    (code ≠ some 0 →
      (onClose st textChunks leftover code finalElapsed agentSessionFile).1.sessionFile =
        st.sessionFile) := by
  by_cases h : code = some 0 <;> simp [onClose, h]

/-- C4 witness: a successful exit records the session handle and the
done status; a failed exit keeps the prior (absent) handle and reports
error. -/
theorem closeReconciliationWitness :
    (onClose sampleRunning ["all done\n"] none (some 0) 5000 "sd/scout.json").1.status = .done ∧
    (onClose sampleRunning ["all done\n"] none (some 0) 5000 "sd/scout.json").1.sessionFile =
      some "sd/scout.json" ∧
    (onClose sampleRunning ["all done\n"] none (some 2) 5000 "sd/scout.json").1.status = .error ∧
    (onClose sampleRunning ["all done\n"] none (some 2) 5000 "sd/scout.json").1.sessionFile =
      none := by
  have h0 := closeReconciliation sampleRunning ["all done\n"] none (some 0) 5000 "sd/scout.json"
  have h2 := closeReconciliation sampleRunning ["all done\n"] none (some 2) 5000 "sd/scout.json"
  refine ⟨h0.1.mpr rfl, h0.2.2.2.2.2.1 rfl, h2.2.1 (by decide), ?_⟩
  rw [h2.2.2.2.2.2.2 (by decide)]
  rfl

/-- The stream of the C5 scenario: exactly three tool-invocation-start
events and nothing else. -/
def c5Stream : List (Option PiEvent) :=
  [some .toolExecutionStart, some .toolExecutionStart, some .toolExecutionStart]

/-- C5 counterexample: dispatching "list files" to an idle cloud-model
agent whose child emits exactly three tool-invocation-start events and
exits 0 ends with status done and toolCount 3 — but the last-observed
output fragment is the EMPTY string, because the transcript of such a
run contains no text deltas and the close handler recomputes lastWork
as the last non-blank transcript line.  The claim's non-empty-fragment
conjunct is therefore false at this input. -/
theorem endToEndNoTextCounterexample :
    List.lookup "scout"
        (dispatchRun [("scout", sampleIdle)] "Scout" "list files"
          (some ("openrouter", "gemini")) [] .unreachable none 200000 ".pi/agent-sessions"
          (.runs c5Stream none (some 0) 5000)).states =
      some
        { agentDef := sampleDef
          status := .done
          task := "list files"
          toolCount := 3
          elapsed := 5000
          lastWork := ""
          contextPct := 0
          sessionFile := some ".pi/agent-sessions/scout.json"
          runCount := 1
          timerActive := false } := by
  rfl

/-- C5 amended: for a found, not-running agent whose effective model is
not served by a local provider, a run whose stream carries exactly
three tool-invocation-start events and exit code 0 ends with status
done, toolCount 3, and a last-observed output fragment equal to the
last non-blank line of the concatenated text deltas — which is
non-empty provided the transcript has at least one non-blank line (and
empty when the child emitted no text, as the counterexample shows). -/
theorem endToEndThreeToolsAmended
    (states : List (String × AgentState)) (agentName task : String)
    (ctxModel : Option (String × String)) (cache : CheckCache)
    (outcome : ShowOutcome) (registryDigest : Option String)
    (contextWindow : Nat) (sessionDir : String)
    (lines : List (Option PiEvent)) (leftover : Option PiEvent) (finalElapsed : Nat)
    (st : AgentState)
    (hlook : List.lookup (jsToLower agentName) states = some st)
    (hnr : ¬(st.status = .running))
    (hnonlocal : isLocalProvider (parseModelString (effectiveModelOf st ctxModel)).1 = false)
    (hcount : lines.countP (fun l => l = some .toolExecutionStart) = 3) :
    ∃ fin, List.lookup (jsToLower agentName)
        (dispatchRun states agentName task ctxModel cache outcome registryDigest
          contextWindow sessionDir (.runs lines leftover (some 0) finalElapsed)).states =
          some fin ∧
      fin.status = .done ∧
      fin.toolCount = 3 ∧
      fin.lastWork = lastNonBlankLine (String.join (fullTranscript lines leftover)) ∧
      ((splitLines (String.join (fullTranscript lines leftover))).any
          (fun l => !((jsTrim l).data.isEmpty)) = true → ¬(fin.lastWork = "")) := by
  have hpre : dispatchPre states agentName task ctxModel cache outcome registryDigest =
      { outcome := .launch
          { st with
              status := .running
              task := task
              toolCount := 0
              elapsed := 0
              lastWork := ""
              runCount := st.runCount + 1
              timerActive := true }
        states := assocSet states (jsToLower agentName)
          { st with
              status := .running
              task := task
              toolCount := 0
              elapsed := 0
              lastWork := ""
              runCount := st.runCount + 1
              timerActive := true }
        cache := cache } := by
    by_cases hem : effectiveModelOf st ctxModel = "" <;>
      simp [dispatchPre, hlook, hnr, hem, hnonlocal]
  simp only [dispatchRun, hpre]
  refine ⟨_, lookup_assocSet _ _ _, ?_, ?_, ?_, ?_⟩
  · simp [onClose]
  · simp only [onClose]
    rw [processStream_toolCount]
    simp [hcount]
  · simp only [onClose]
    rw [closeChunks_eq, processStream_transcript]
    simp [fullTranscript]
  · intro hblank
    simp only [onClose]
    rw [closeChunks_eq, processStream_transcript]
    simp only [List.nil_append]
    exact lastNonBlankLine_ne_empty _ (by simpa [fullTranscript] using hblank)

/-- The C5 stream extended with one text event carrying a non-blank
line. -/
def c5StreamWithText : List (Option PiEvent) :=
  c5Stream ++ [some (.messageUpdate (some "Listed 3 files."))]

/-- C5 amended witness: the same stream plus one text event with a
non-blank line yields done, toolCount 3 and a non-empty fragment. -/
theorem endToEndThreeToolsAmendedWitness :
    ∃ fin, List.lookup (jsToLower "Scout")
        (dispatchRun [("scout", sampleIdle)] "Scout" "list files"
          (some ("openrouter", "gemini")) [] .unreachable none 200000 ".pi/agent-sessions"
          (.runs c5StreamWithText none (some 0) 5000)).states = some fin ∧
      fin.status = .done ∧
      fin.toolCount = 3 ∧
      fin.lastWork = lastNonBlankLine (String.join (fullTranscript c5StreamWithText none)) ∧
      ((splitLines (String.join (fullTranscript c5StreamWithText none))).any
          (fun l => !((jsTrim l).data.isEmpty)) = true → ¬(fin.lastWork = "")) := by
  have hlook : List.lookup (jsToLower "Scout") [("scout", sampleIdle)] = some sampleIdle := by
    rfl
  have hnr : ¬(sampleIdle.status = .running) := by decide
  have hnl : isLocalProvider
      (parseModelString (effectiveModelOf sampleIdle (some ("openrouter", "gemini")))).1 =
      false := by rfl
  have hc : c5StreamWithText.countP (fun l => l = some PiEvent.toolExecutionStart) = 3 := by
    rfl
  exact endToEndThreeToolsAmended [("scout", sampleIdle)] "Scout" "list files"
    (some ("openrouter", "gemini")) [] .unreachable none 200000 ".pi/agent-sessions"
    c5StreamWithText none 5000 sampleIdle hlook hnr hnl hc

/-- A minimal agent file defining the given name with the given body. -/
def c6File (nm body : String) : String :=
  "---\nname: " ++ nm ++ "\n---\n" ++ body

/-- The C6 scenario directory: three files defining the identities
Scout, scout and SCOUT, in that order. -/
def c6Dir : ScannedDir :=
  { path := "agents"
    listing := some
      [("a.md", some (c6File "Scout" "First body.")),
       ("b.md", some (c6File "scout" "Second body.")),
       ("c.md", some (c6File "SCOUT" "Third body."))] }

/-- The definition the C6 scan retains. -/
def c6Retained : AgentDef :=
  { name := "Scout"
    description := ""
    tools := "read,grep,find,ls"
    model := ""
    thinking := ""
    systemPrompt := "First body."
    file := "agents/a.md" }

/-- C6 counterexample: scanning the Scout/scout/SCOUT directory yields
EXACTLY the one retained definition and nothing more — the scanner's
complete output is the definition list, which references only the
first file's path.  No collision records exist anywhere in the result
(the scanner has no collision-reporting output at all), so the claim
that "exactly two collision records are produced, each naming the
retained path" is false: zero are produced. -/
theorem scanCollisionRecordsCounterexample :
    scanAgentDirs [c6Dir] = [c6Retained] ∧
    (scanAgentDirs [c6Dir]).map (fun d => d.file) = ["agents/a.md"] := by
  exact ⟨by rfl, by rfl⟩

/-- C6 amended: in the Scout/scout/SCOUT scan exactly one definition is
retained, carrying the first file's content and path; the two later
case-colliding files are silently excluded and the scan produces no
collision records (its only output is the definition list). -/
theorem scanFirstOccurrenceWins :
    (scanAgentDirs [c6Dir]).length = 1 ∧
    (scanAgentDirs [c6Dir]).map (fun d => (d.name, d.systemPrompt, d.file)) =
      [("Scout", "First body.", "agents/a.md")] := by
  exact ⟨by rfl, by rfl⟩

/-- A well-formed agent file with a frontmatter block but no name
field. -/
def c7NoNameFile : String :=
  "---\ndescription: a scout\ntools: read\n---\nYou scout the codebase."

/-- C7 counterexample: parsing a file with a well-formed frontmatter
header but no identity field yields NO definition — parseAgentFile
returns none instead of a definition named after the base name
("noname"), so the claimed base-name fallback does not exist. -/
theorem parseMissingNameCounterexample :
    parseAgentFile "agents/noname.md" (some c7NoNameFile) = none := by
  rfl

/-- C7 amended: an agent file whose frontmatter has no name field (or
an empty one) is rejected: parseAgentFile returns none; the identity
never falls back to the file's base name. -/
theorem parseMissingNameRejected (filePath raw fmRaw body : String)
    (hsplit : frontmatterSplit raw = some (fmRaw, body))
    (hname : (List.lookup "name" (parseFrontmatter fmRaw)).getD "" = "") :
    parseAgentFile filePath (some raw) = none := by
  simp [parseAgentFile, hsplit, hname]

/-- C7 amended witness: the concrete name-less file is rejected
whatever its path. -/
theorem parseMissingNameRejectedWitness :
    parseAgentFile "agents/noname.md" (some c7NoNameFile) = none ∧
    parseAgentFile "other/path.md" (some c7NoNameFile) = none := by
  constructor <;>
    exact parseMissingNameRejected _ c7NoNameFile
      "description: a scout\ntools: read" "You scout the codebase." (by rfl) (by rfl)

/-- C8: when the team manifest is absent, unreadable, or parses to
zero teams, loading synthesizes exactly one default team named all
whose member list is every loaded agent name in load order. -/
theorem defaultTeamSynthesis (manifestRaw : Option (Option String))
    (defs : List AgentDef)
    (h : manifestRaw = none ∨ manifestRaw = some none ∨
      ∃ raw, manifestRaw = some (some raw) ∧ parseTeamsYaml raw = []) :
    loadTeams manifestRaw defs = [("all", defs.map (fun d => d.name))] := by
  rcases h with h | h | ⟨raw, hr, hp⟩
  · simp [loadTeams, h]
  · simp [loadTeams, h]
  · subst hr
    simp [loadTeams, hp]

/-- C8 witness: a manifest whose text defines no team triggers the
synthesized all team over the loaded definitions, in order. -/
theorem defaultTeamSynthesisWitness :
    loadTeams (some (some "just prose, no teams")) [sampleDef, sampleLocalDef] =
      [("all", ["Scout", "builder"])] := by
  have h := defaultTeamSynthesis (some (some "just prose, no teams"))
    [sampleDef, sampleLocalDef] (Or.inr (Or.inr ⟨"just prose, no teams", rfl, by rfl⟩))
  rw [h]
  rfl

/-- C9: a streamed usage report — whether a per-message usage event or
the final batched form in an agent-end event — changes the
context-window percentage only when the known context-window size is
nonzero: with a zero size the state is untouched (the input/window
ratio is never formed with a zero divisor), a usage-less message event
is a no-op, and with a positive size the percentage becomes exactly
input tokens / window size * 100, nothing else changing. -/
theorem usageUpdateGuard (cw : Nat) (acc : AgentState × List String) :
    (∀ u, cw = 0 → applyEvent cw acc (.messageEnd u) = acc) ∧
    (∀ msgs, cw = 0 → applyEvent cw acc (.agentEnd msgs) = acc) ∧
    (applyEvent cw acc (.messageEnd none) = acc) ∧
    (∀ i, 0 < cw →
      applyEvent cw acc (.messageEnd (some i)) =
        ({ acc.1 with contextPct := ((i : ℚ) / (cw : ℚ)) * 100 }, acc.2)) := by
  refine ⟨?_, ?_, ?_, ?_⟩
  · intro u h
    cases u with
    | none => simp [applyEvent]
    | some i => simp [applyEvent, h]
  · intro msgs h
    simp only [applyEvent]
    cases hfind : (msgs.reverse).find? (fun m => m.role = "assistant") with
    | none => rfl
    | some last =>
      cases hu : last.usage with
      | none => simp [hu]
      | some i => simp [hu, h]
  · simp [applyEvent]
  · intro i h
    simp [applyEvent, h]

/-- C9 witness: with a zero window a usage report leaves the state
unchanged; with a window of 200000 an input count of 50000 sets the
percentage to 25. -/
theorem usageUpdateGuardWitness :
    applyEvent 0 (sampleRunning, []) (.messageEnd (some 50000)) = (sampleRunning, []) ∧
    (applyEvent 200000 (sampleRunning, []) (.messageEnd (some 50000))).1.contextPct = 25 := by
  have h0 := usageUpdateGuard 0 (sampleRunning, [])
  have h1 := usageUpdateGuard 200000 (sampleRunning, [])
  refine ⟨h0.1 (some 50000) rfl, ?_⟩
  rw [h1.2.2.2 50000 (by decide)]
  norm_num

/-- Every entry of an activated team's state table is keyed by the
lowercased name of its own definition. -/
theorem activateTeamKeysLower (allAgentDefs : List AgentDef)
    (teams : List (String × List String)) (teamName sessionDir : String)
    (existsFile : String → Bool) :
    ∀ p ∈ activateTeam allAgentDefs teams teamName sessionDir existsFile,
      p.1 = jsToLower p.2.agentDef.name := by
  have haux : ∀ (members : List String) (acc : List (String × AgentState)),
      (∀ p ∈ acc, p.1 = jsToLower p.2.agentDef.name) →
      ∀ p ∈ members.foldl (activateStep allAgentDefs sessionDir existsFile) acc,
        p.1 = jsToLower p.2.agentDef.name := by
    intro members
    induction members with
    | nil => intro acc hacc p hp; exact hacc p hp
    | cons m rest ih =>
      intro acc hacc p hp
      rw [List.foldl_cons] at hp
      refine ih _ ?_ p hp
      intro q hq
      unfold activateStep at hq
      cases hfind : (allAgentDefs.reverse).find?
          (fun d => jsToLower d.name = jsToLower m) with
      | none =>
        rw [hfind] at hq
        exact hacc q hq
      | some d =>
        rw [hfind] at hq
        exact mem_assocSet acc _ _ hacc rfl q hq
  intro p hp
  exact haux _ [] (by intro q hq; cases hq) p hp

/-- C10: dispatch lookup is case-insensitive — the state table key
used at dispatch is the lowercased request name, every activated state
is stored under the lowercased name of its definition, and two request
names with the same lowercasing resolve to the same state. -/
theorem dispatchLookupCaseInsensitive (allAgentDefs : List AgentDef)
    (teams : List (String × List String)) (teamName sessionDir : String)
    (existsFile : String → Bool)
    (states : List (String × AgentState)) (n1 n2 : String)
    (hn : jsToLower n1 = jsToLower n2) :
    (∀ p ∈ activateTeam allAgentDefs teams teamName sessionDir existsFile,
        p.1 = jsToLower p.2.agentDef.name) ∧
    List.lookup (jsToLower n1) states = List.lookup (jsToLower n2) states :=
  ⟨activateTeamKeysLower allAgentDefs teams teamName sessionDir existsFile, by rw [hn]⟩

/-- C10 witness: three casings of the sample agent's name resolve to
the same state in a concretely activated team. -/
theorem dispatchLookupCaseInsensitiveWitness :
    (∀ p ∈ activateTeam [sampleDef] [("all", ["Scout"])] "all" "sd" (fun _ => false),
        p.1 = jsToLower p.2.agentDef.name) ∧
    List.lookup (jsToLower "SCOUT") [("scout", sampleIdle)] =
      List.lookup (jsToLower "sCoUt") [("scout", sampleIdle)] :=
  dispatchLookupCaseInsensitive [sampleDef] [("all", ["Scout"])] "all" "sd"
    (fun _ => false) [("scout", sampleIdle)] "SCOUT" "sCoUt" (by rfl)
